import Mathlib

/-!
# Pixelopolis — verification of the tile-grid simulation engine

Shallow embedding of the simulation core of the `pixelopolis` city-building
game: the grid store (`WorldState`), the power-distribution engine
(`PowerSystem`), the growth state machine (`GrowthSystem`), the economy
accrual logic (`EconomySystem`), the fixed-step tick scheduler
(`SimulationSystem`) and the command/undo log (`CommandQueue`).

JavaScript numbers are modelled as exact rationals (`ℚ`); all the arithmetic
the claims depend on (integer sums, halving of even numbers, the 32-bit LCG
whose intermediate products stay below 2^53) is exact in IEEE doubles, so the
rational model agrees with the source on these values.  The `NaN` guard on
the economy balance is modelled by an explicit `nan` summand on the balance
type.  Grid coordinates are natural numbers; the source's `x < 0` branch of
the bounds checks is subsumed by the codomain.
-/

namespace Pixelopolis

/-- Tile types (`TileType` in `types.ts`). -/
inductive TileType where
  | EMPTY
  | ROAD
  | RES
  | COM
  | IND
  | POWER_PLANT
deriving DecidableEq, Repr

/-- Building data for zone tiles (`BuildingData` in `types.ts`):
`level` (0 = empty lot, 1–3 building) and `unpoweredTime` in seconds. -/
structure BuildingData where
  level : ℕ
  unpoweredTime : ℚ
deriving DecidableEq, Repr

/-- A tile: a type plus an optional building record (`Tile` in `types.ts`). -/
structure Tile where
  type : TileType
  building : Option BuildingData := none
deriving DecidableEq, Repr

/-- `ISOMETRIC_CONFIG.TILE_WIDTH`. -/
def TILE_WIDTH : ℚ := 64

/-- `ISOMETRIC_CONFIG.TILE_HEIGHT`. -/
def TILE_HEIGHT : ℚ := 32

/-- The grid store (`WorldState` in `WorldState.ts`): a `width × height`
array of tiles.  The 2D array `tiles[y][x]` is modelled as a total function
on coordinates; out-of-bounds reads go through `getTile`, which performs the
source's bounds check and returns `none` (the source's `null`). -/
structure WorldState where
  width : ℕ
  height : ℕ
  tiles : ℕ → ℕ → Tile

namespace WorldState

/-- `WorldState.getTile`: `null` (`none`) when out of bounds. -/
def getTile (g : WorldState) (x y : ℕ) : Option Tile :=
  if x < g.width ∧ y < g.height then some (g.tiles x y) else none

/-- `WorldState.setTile`: replaces the tile by value when in bounds,
otherwise leaves the grid unchanged (the source returns `false`). -/
def setTile (g : WorldState) (x y : ℕ) (t : Tile) : WorldState :=
  if x < g.width ∧ y < g.height then
    { g with tiles := fun a b => if a = x ∧ b = y then t else g.tiles a b }
  else g

/-- `WorldState.isValidPosition`. -/
def isValidPosition (g : WorldState) (x y : ℕ) : Bool :=
  decide (x < g.width ∧ y < g.height)

/-- The positions visited by the source's scan loops
(`for y … for x …`), in visit order. -/
def positions (g : WorldState) : List (ℕ × ℕ) :=
  (List.range g.height).flatMap fun y => (List.range g.width).map fun x => (x, y)

/-- `WorldState.countTiles`: full scan counting tiles of one type. -/
def countTiles (g : WorldState) (t : TileType) : ℕ :=
  ((positions g).filter fun p => (g.tiles p.1 p.2).type = t).length

/-- `WorldState.worldToTile`: world (isometric screen) coordinates to tile
coordinates, with `Math.floor` rounding. -/
def worldToTile (worldX worldY : ℚ) : ℤ × ℤ :=
  let tileX := (worldX / (TILE_WIDTH / 2) + worldY / (TILE_HEIGHT / 2)) / 2
  let tileY := (worldY / (TILE_HEIGHT / 2) - worldX / (TILE_WIDTH / 2)) / 2
  (⌊tileX⌋, ⌊tileY⌋)

/-- `WorldState.tileToWorld`: tile coordinates to world coordinates. -/
def tileToWorld (tileX tileY : ℤ) : ℚ × ℚ :=
  ((tileX - tileY) * (TILE_WIDTH / 2), (tileX + tileY) * (TILE_HEIGHT / 2))

end WorldState

/-! ## Power grid engine (`PowerSystem.ts`) -/

/-- `POWER_CONFIG.POWER_PER_PLANT`. -/
def POWER_PER_PLANT : ℕ := 200

/-- `POWER_CONFIG.POWER_RADIUS` (Manhattan distance). -/
def POWER_RADIUS : ℕ := 8

/-- `POWER_CONSUMING_TILES` from `types.ts`. -/
def POWER_CONSUMING_TILES : List TileType :=
  [TileType.RES, TileType.COM, TileType.IND, TileType.ROAD]

/-- `POWER_CONSUMING_TILES.includes(type)`. -/
def consumesPower (t : TileType) : Bool :=
  decide (t ∈ POWER_CONSUMING_TILES)

/-- Derived power grid state (`PowerGridState` in `types.ts`).  The source's
`poweredTiles: Set<string>` of `"x,y"` keys is modelled as the duplicate-free
list of positions in insertion (scan) order; membership agrees with the
string-keyed set since the key encoding is injective. -/
structure PowerGridState where
  capacity : ℕ
  demand : ℕ
  plants : List (ℕ × ℕ)
  poweredTiles : List (ℕ × ℕ)
deriving DecidableEq, Repr

namespace PowerSystem

/-- `PowerSystem.manhattanDistance`. -/
def manhattanDistance (x1 y1 x2 y2 : ℕ) : ℕ :=
  ((x1 : ℤ) - x2).natAbs + ((y1 : ℤ) - y2).natAbs

/-- `PowerSystem.findPowerPlants`: scan for all `POWER_PLANT` tiles. -/
def findPowerPlants (g : WorldState) : List (ℕ × ℕ) :=
  (g.positions).filter fun p =>
    match g.getTile p.1 p.2 with
    | none => false
    | some t => t.type = TileType.POWER_PLANT

/-- `PowerSystem.isWithinPowerRange`: within `POWER_RADIUS` of any plant. -/
def isWithinPowerRange (plants : List (ℕ × ℕ)) (x y : ℕ) : Bool :=
  plants.any fun p => manhattanDistance x y p.1 p.2 ≤ POWER_RADIUS

/-- The body of `recalculate`'s second scan: a tile is added to
`poweredTiles` iff it exists, consumes power and is within range. -/
def poweredPred (g : WorldState) (plants : List (ℕ × ℕ)) (p : ℕ × ℕ) : Bool :=
  match g.getTile p.1 p.2 with
  | none => false
  | some t => consumesPower t.type && isWithinPowerRange plants p.1 p.2

/-- `PowerSystem.recalculate`: recomputes the entire `PowerGridState` from
scratch.  The previous state is the method's `this.gridState`; every field of
it is overwritten (`plants` and `capacity` are reassigned, `poweredTiles` is
cleared and refilled, `demand` is reset and recounted), so the result does
not depend on it. -/
def recalculate (_prev : PowerGridState) (g : WorldState) : PowerGridState :=
  let plants := findPowerPlants g
  let powered := (g.positions).filter (poweredPred g plants)
  { capacity := plants.length * POWER_PER_PLANT
    demand := powered.length
    plants := plants
    poweredTiles := powered }

/-- `PowerSystem.isPowered`: membership of the `"x,y"` key in the powered
set. -/
def isPowered (st : PowerGridState) (x y : ℕ) : Bool :=
  decide ((x, y) ∈ st.poweredTiles)

end PowerSystem

/-! ## Economy engine: happiness (`EconomySystem.calculateHappiness`) -/

/-- `SIMULATION_CONFIG.BASE_HAPPINESS`. -/
def BASE_HAPPINESS : ℚ := 1/2

/-- `SIMULATION_CONFIG.POWER_HAPPINESS_BONUS` (source literal `0.2`; the
claims' comparisons are insensitive to the double rounding of `0.2`, see the
file comment). -/
def POWER_HAPPINESS_BONUS : ℚ := 1/5

/-- `SIMULATION_CONFIG.SPARE_CAPACITY_THRESHOLD`. -/
def SPARE_CAPACITY_THRESHOLD : ℚ := 1/10

namespace EconomySystem

/-- `EconomySystem.calculateHappiness`: base happiness plus a bonus when
there is spare capacity, clamped to `[0,1]`.  The bonus branch is guarded by
`capacity > 0 && demand > 0` in the source. -/
def calculateHappiness (capacity demand : ℕ) : ℚ :=
  let base := BASE_HAPPINESS
  let h :=
    if 0 < capacity ∧ 0 < demand then
      if ((capacity : ℚ) - demand) / capacity ≥ SPARE_CAPACITY_THRESHOLD then
        base + POWER_HAPPINESS_BONUS
      else base
    else base
  max 0 (min 1 h)

end EconomySystem

/-- The freshly-initialized power grid state (the constructor's
`this.gridState` before the initial `recalculate`). -/
def initialPowerState : PowerGridState :=
  { capacity := 0, demand := 0, plants := [], poweredTiles := [] }

/-! ## Deterministic RNG (`RNG.ts`) -/

namespace RNG

/-- The LCG state transition of `RNG.next()` (Numerical Recipes parameters):
`current = (a * current + c) % m` with `m = 2^32`.  All intermediate values
stay below `2^53`, so the double arithmetic of the source is exact. -/
def next (current : ℕ) : ℕ :=
  (1664525 * current + 1013904223) % 2 ^ 32

/-- The value returned by `RNG.next()`: the advanced state divided by `m`. -/
def output (current : ℕ) : ℚ :=
  (next current : ℚ) / 2 ^ 32

end RNG

/-! ## Growth engine (`GrowthSystem.ts`) -/

/-- `SIMULATION_CONFIG.TICK_INTERVAL` in milliseconds. -/
def TICK_INTERVAL : ℚ := 100

/-- `SIMULATION_CONFIG.GROWTH_CHANCE` (source literal `0.01`; the LCG outputs
`k/2^32` are never close enough to `1/100` for the double rounding of `0.01`
to change a comparison). -/
def GROWTH_CHANCE : ℚ := 1/100

/-- `SIMULATION_CONFIG.UPGRADE_BASE_CHANCE` (source literal `0.005`). -/
def UPGRADE_BASE_CHANCE : ℚ := 1/200

/-- `SIMULATION_CONFIG.HAPPINESS_UPGRADE_MULTIPLIER`. -/
def HAPPINESS_UPGRADE_MULTIPLIER : ℚ := 2

/-- `SIMULATION_CONFIG.ABANDONMENT_TIME` in seconds. -/
def ABANDONMENT_TIME : ℚ := 30

/-- `MAX_BUILDING_LEVEL` from `BuildingData.ts`. -/
def MAX_BUILDING_LEVEL : ℕ := 3

/-- `canHaveBuildings` from `BuildingData.ts`. -/
def canHaveBuildings (t : TileType) : Bool :=
  decide (t = TileType.RES ∨ t = TileType.COM ∨ t = TileType.IND)

namespace GrowthSystem

/-- The per-tile body of `GrowthSystem.processGrowth` for one zoned tile:
repair a missing building record, update the unpowered timer, then run
abandonment / spawn / upgrade.  Returns the updated tile, the RNG state after
any draw, and whether the tile changed level this tick.  A tile at
`MAX_BUILDING_LEVEL` draws nothing. -/
def processTile (powered : Bool) (happiness : ℚ) (t : Tile) (rng : ℕ) :
    Tile × ℕ × Bool :=
  let b0 := t.building.getD { level := 0, unpoweredTime := 0 }
  let b1 : BuildingData :=
    if powered then { b0 with unpoweredTime := 0 }
    else { b0 with unpoweredTime := b0.unpoweredTime + TICK_INTERVAL / 1000 }
  if b1.unpoweredTime ≥ ABANDONMENT_TIME ∧ 0 < b1.level then
    ({ t with building := some { level := b1.level - 1, unpoweredTime := 0 } }, rng, true)
  else if powered = false then
    ({ t with building := some b1 }, rng, false)
  else if b1.level = 0 then
    if RNG.output rng < GROWTH_CHANCE then
      ({ t with building := some { b1 with level := 1 } }, RNG.next rng, true)
    else ({ t with building := some b1 }, RNG.next rng, false)
  else if b1.level < MAX_BUILDING_LEVEL then
    let upgradeChance := UPGRADE_BASE_CHANCE *
      (if happiness ≥ 7/10 then HAPPINESS_UPGRADE_MULTIPLIER else 1)
    if RNG.output rng < upgradeChance then
      ({ t with building := some { b1 with level := b1.level + 1 } }, RNG.next rng, true)
    else ({ t with building := some b1 }, RNG.next rng, false)
  else
    ({ t with building := some b1 }, rng, false)

/-- Accumulator of the growth scan: current grid, RNG state, changed tiles. -/
abbrev GAcc := WorldState × ℕ × List (ℕ × ℕ)

/-- One iteration of `processGrowth`'s scan loop at position `p`: skip
missing or non-zone tiles, otherwise run `processTile` and record the
position in `changedTiles` if its level changed. -/
def growthStep (powered : ℕ → ℕ → Bool) (happiness : ℚ) (acc : GAcc)
    (p : ℕ × ℕ) : GAcc :=
  match (acc.1).getTile p.1 p.2 with
  | none => acc
  | some t =>
    if canHaveBuildings t.type then
      let r := processTile (powered p.1 p.2) happiness t acc.2.1
      (acc.1.setTile p.1 p.2 r.1, r.2.1,
        if r.2.2 then acc.2.2 ++ [p] else acc.2.2)
    else acc

/-- `GrowthSystem.processGrowth`: the full scan over the grid. -/
def processGrowth (g : WorldState) (powered : ℕ → ℕ → Bool) (happiness : ℚ)
    (rng : ℕ) : GAcc :=
  (g.positions).foldl (growthStep powered happiness) (g, rng, [])

/-- One simulation tick as observed by the growth engine: power is fully
recomputed from the grid, happiness from the recomputed power numbers, and
growth then consumes the single LCG stream. -/
def simTick (g : WorldState) (rng : ℕ) : GAcc :=
  let power := PowerSystem.recalculate initialPowerState g
  let hap := EconomySystem.calculateHappiness power.capacity power.demand
  processGrowth g (fun x y => PowerSystem.isPowered power x y) hap rng

/-- Replay `n` ticks from a grid and a seed, collecting the per-tick
level-change sequences. -/
def simReplay : WorldState → ℕ → ℕ → List (List (ℕ × ℕ))
  | _, _, 0 => []
  | g, rng, n + 1 =>
    let r := simTick g rng
    r.2.2 :: simReplay r.1 r.2.1 n

end GrowthSystem

/-! ## Economy engine: taxes (`EconomySystem.ts`) -/

/-- `SIMULATION_CONFIG.TAX_INTERVAL` in (simulated) seconds. -/
def TAX_INTERVAL : ℚ := 3

/-- `ECONOMY_CONFIG` constants. -/
def TAX_PER_POPULATION : ℕ := 2

def TAX_PER_SHOPPER : ℕ := 1

def TAX_PER_JOB : ℕ := 1

def UPKEEP_PER_ROAD : ℕ := 1

def UPKEEP_PER_PLANT : ℕ := 5

def STARTING_BALANCE : ℚ := 1000

/-- The economy balance: a JavaScript number that may be `NaN` (e.g. from a
malformed loaded save).  Adding anything to `NaN` yields `NaN`. -/
inductive EFloat where
  | nan
  | val (q : ℚ)
deriving DecidableEq, Repr

namespace EFloat

/-- Addition of a (finite) net income to the balance. -/
def add : EFloat → ℚ → EFloat
  | nan, _ => nan
  | val b, q => val (b + q)

/-- `isNaN`. -/
def isNaN : EFloat → Bool
  | nan => true
  | val _ => false

end EFloat

/-- `CityStats` from `types.ts`. -/
structure CityStats where
  balance : EFloat
  population : ℕ
  jobs : ℕ
  shoppers : ℕ
  happiness : ℚ
deriving DecidableEq, Repr

/-- `BuildingLevelStats` lookup `BUILDING_STATS` from `BuildingData.ts`,
as `(population, jobs, shoppers)`; missing entries (level 0, non-zone
types) default to zeros as in `getBuildingStats`. -/
def getBuildingStats : TileType → ℕ → ℕ × ℕ × ℕ
  | TileType.RES, 1 => (10, 0, 0)
  | TileType.RES, 2 => (25, 0, 0)
  | TileType.RES, 3 => (50, 0, 0)
  | TileType.COM, 1 => (0, 0, 15)
  | TileType.COM, 2 => (0, 0, 35)
  | TileType.COM, 3 => (0, 0, 70)
  | TileType.IND, 1 => (0, 20, 0)
  | TileType.IND, 2 => (0, 45, 0)
  | TileType.IND, 3 => (0, 90, 0)
  | _, _ => (0, 0, 0)

namespace EconomySystem

/-- One iteration of `calculateStats`'s scan: skip missing tiles, non-zone
tiles and tiles without a building, else accumulate the level stats. -/
def statsStep (g : WorldState) (acc : ℕ × ℕ × ℕ) (p : ℕ × ℕ) : ℕ × ℕ × ℕ :=
  match g.getTile p.1 p.2 with
  | none => acc
  | some t =>
    if canHaveBuildings t.type then
      match t.building with
      | none => acc
      | some b =>
        let s := getBuildingStats t.type b.level
        (acc.1 + s.1, acc.2.1 + s.2.1, acc.2.2 + s.2.2)
    else acc

/-- `EconomySystem.calculateStats` (the aggregate part): the summed
`(population, jobs, shoppers)` over the grid. -/
def calculateStats (g : WorldState) : ℕ × ℕ × ℕ :=
  (g.positions).foldl (statsStep g) (0, 0, 0)

/-- `EconomySystem.collectTaxes`: income from the current stats, upkeep from
road/plant counts, then `balance += income − upkeep` with the `NaN` guard
resetting a corrupted balance to 0. -/
def collectTaxes (balance : EFloat) (population jobs shoppers : ℕ)
    (g : WorldState) : EFloat :=
  let income := population * TAX_PER_POPULATION + shoppers * TAX_PER_SHOPPER +
    jobs * TAX_PER_JOB
  let roadCount := g.countTiles TileType.ROAD
  let plantCount := g.countTiles TileType.POWER_PLANT
  let upkeep := roadCount * UPKEEP_PER_ROAD + plantCount * UPKEEP_PER_PLANT
  let netIncome : ℚ := (income : ℚ) - (upkeep : ℚ)
  let newBalance := balance.add netIncome
  if newBalance.isNaN then EFloat.val 0 else newBalance

/-- `EconomySystem.onTick`: recompute the stats and happiness every tick;
collect taxes when at least `TAX_INTERVAL` simulated seconds of cumulative
tick time have elapsed since the last collection.  The state is
`(cityStats, lastTaxTime)`. -/
def onTick (g : WorldState) (power : PowerGridState) (st : CityStats)
    (lastTaxTime : ℚ) (tickCount : ℕ) : CityStats × ℚ :=
  let s := calculateStats g
  let st' : CityStats :=
    { st with
      population := s.1
      jobs := s.2.1
      shoppers := s.2.2
      happiness := calculateHappiness power.capacity power.demand }
  let elapsedTime := (tickCount : ℚ) * (TICK_INTERVAL / 1000)
  if elapsedTime - lastTaxTime ≥ TAX_INTERVAL then
    ({ st' with
        balance := collectTaxes st'.balance st'.population st'.jobs st'.shoppers g },
      elapsedTime)
  else (st', lastTaxTime)

/-- Run the economy over ticks `1, 2, …, n`. -/
def econRun (g : WorldState) (power : PowerGridState) (init : CityStats × ℚ)
    (n : ℕ) : CityStats × ℚ :=
  (List.range n).foldl (fun acc k => onTick g power acc.1 acc.2 (k + 1)) init

end EconomySystem

/-! ## Tick scheduler (`SimulationSystem.ts`) -/

namespace SimulationSystem

/-- `SimulationSystem`'s mutable fields. -/
structure SimState where
  isRunning : Bool
  tickCount : ℕ
  accumulator : ℚ
  lastTime : ℚ
deriving DecidableEq, Repr

/-- The constructor state: running, no ticks, empty accumulator, and
`lastTime = 0` (the sentinel for "not yet initialized"). -/
def initState : SimState :=
  { isRunning := true, tickCount := 0, accumulator := 0, lastTime := 0 }

/-- The `while (accumulator ≥ tickInterval)` loop of `update`, firing one
tick and subtracting one interval per iteration; the result is
`(ticks fired, remaining accumulator)`.  The loop runs at most
`⌊accumulator · 10⌋` times, so any fuel of at least that many steps makes
the structural recursion behave exactly like the source loop (the guard
stops it early). -/
def drainTicks : ℕ → ℚ → ℕ × ℚ
  | 0, acc => (0, acc)
  | fuel + 1, acc =>
    if acc ≥ TICK_INTERVAL / 1000 then
      let r := drainTicks fuel (acc - TICK_INTERVAL / 1000)
      (r.1 + 1, r.2)
    else (0, acc)

/-- The tick loop with sufficient fuel: for a rational `q ≥ 0`,
`⌊q⌋ ≤ q.num` since the denominator is at least 1, so `(acc·10).num + 1`
steps are always enough. -/
def fireTicks (acc : ℚ) : ℕ × ℚ :=
  drainTicks ((acc * 10).num.toNat + 1) acc

/-- `SimulationSystem.update`: no-op while paused; the first call only
records `lastTime`; afterwards the elapsed wall-clock time since `lastTime`
is accumulated and whole tick intervals are fired off. -/
def update (s : SimState) (time : ℚ) : SimState :=
  if s.isRunning = false then s
  else if s.lastTime = 0 then { s with lastTime := time }
  else
    let deltaTime := (time - s.lastTime) / 1000
    let acc := s.accumulator + deltaTime
    let r := fireTicks acc
    { s with lastTime := time, accumulator := r.2, tickCount := s.tickCount + r.1 }

/-- `SimulationSystem.toggleRunning`: flips the run/pause flag and nothing
else — in particular `lastTime` and `accumulator` are untouched. -/
def toggleRunning (s : SimState) : SimState :=
  { s with isRunning := !s.isRunning }

end SimulationSystem

/-! ## Command/undo log (`CommandQueue.ts`, `PaintTileCommand.ts`,
`BrushTool.ts`) -/

/-- The data of one `PaintTileCommand`: a position and the tile's
before/after values (both stored by value). -/
structure PaintRec where
  pos : ℕ × ℕ
  oldTile : Tile
  newTile : Tile
deriving DecidableEq, Repr

/-- A command in the log: a single-tile paint or a batch of them
(`PaintTileCommand` / `BatchPaintCommand`). -/
inductive Cmd where
  | paint (r : PaintRec)
  | batch (rs : List PaintRec)
deriving DecidableEq, Repr

/-- `PaintTileCommand.execute`. -/
def execRec (g : WorldState) (r : PaintRec) : WorldState :=
  g.setTile r.pos.1 r.pos.2 r.newTile

/-- `PaintTileCommand.undo`. -/
def undoRec (g : WorldState) (r : PaintRec) : WorldState :=
  g.setTile r.pos.1 r.pos.2 r.oldTile

namespace Cmd

/-- `Command.execute`: a batch executes its sub-commands in order. -/
def execute (c : Cmd) (g : WorldState) : WorldState :=
  match c with
  | paint r => execRec g r
  | batch rs => rs.foldl execRec g

/-- `Command.undo`: a batch undoes its sub-commands in reverse order. -/
def undo (c : Cmd) (g : WorldState) : WorldState :=
  match c with
  | paint r => undoRec g r
  | batch rs => rs.foldr (fun r g => undoRec g r) g

end Cmd

/-- `CommandQueue.maxHistory`. -/
def MAX_HISTORY : ℕ := 100

/-- The command queue together with the grid it acts on.  `cursor` is the
number of currently-executed commands, i.e. the source's `currentIndex + 1`
(the source starts at `currentIndex = -1`). -/
structure QueueState where
  grid : WorldState
  history : List Cmd
  cursor : ℕ

/-- `CommandQueue.execute(command)`: truncate the redo branch, run the
command, append it, advance the cursor, and evict the oldest entry (shifting
the cursor back) when the history exceeds `maxHistory`. -/
def executeCmd (s : QueueState) (c : Cmd) : QueueState :=
  let hist := s.history.take s.cursor ++ [c]
  let grid := c.execute s.grid
  if MAX_HISTORY < hist.length then
    { grid := grid, history := hist.tail, cursor := s.cursor + 1 - 1 }
  else
    { grid := grid, history := hist, cursor := s.cursor + 1 }

/-- `CommandQueue.undo()`: no-op at the history boundary (`canUndo` is
`currentIndex ≥ 0`, i.e. `cursor ≥ 1`), else run the command's inverse and
move the cursor back.  (The `none` branch is unreachable: the cursor never
exceeds the history length.) -/
def undoQ (s : QueueState) : QueueState :=
  if 1 ≤ s.cursor then
    match s.history[s.cursor - 1]? with
    | some c => { s with grid := c.undo s.grid, cursor := s.cursor - 1 }
    | none => s
  else s

/-- `CommandQueue.redo()`: no-op at the boundary (`canRedo` is
`currentIndex < length − 1`, i.e. `cursor < length`), else advance the
cursor and re-execute that command. -/
def redoQ (s : QueueState) : QueueState :=
  if s.cursor < s.history.length then
    match s.history[s.cursor]? with
    | some c => { s with grid := c.execute s.grid, cursor := s.cursor + 1 }
    | none => s
  else s

/-- The paint records created by one brush stroke (`BrushTool.paint`):
out-of-bounds probes are rejected, and each record captures the **current**
tile as `oldTile` and is applied immediately, so later records of the same
stroke see earlier writes.  (`BrushTool` also skips duplicate positions and
same-type paints within a stroke; omitting a write only shortens the list,
so all such strokes are instances of this construction.) -/
def mkBatch (g : WorldState) : List ((ℕ × ℕ) × Tile) → List PaintRec
  | [] => []
  | (p, t) :: ws =>
    if g.isValidPosition p.1 p.2 then
      { pos := p, oldTile := g.tiles p.1 p.2, newTile := t } ::
        mkBatch (g.setTile p.1 p.2 t) ws
    else mkBatch g ws

/-- User-level operations on the command log: a brush stroke committed as
one batch command (`BrushTool.stopPaint` undoes the stroke's immediate
edits and replays them as a single batch through the queue, so its net
effect is `executeCmd` of the batch on the pre-stroke grid), a single paint
command, undo, and redo. -/
inductive PaintAct where
  | stroke (writes : List ((ℕ × ℕ) × Tile))
  | single (p : ℕ × ℕ) (t : Tile)
  | undoA
  | redoA

/-- One user-level operation. -/
def stepAct (s : QueueState) : PaintAct → QueueState
  | PaintAct.stroke ws =>
    let rs := mkBatch s.grid ws
    if rs.length = 0 then s else executeCmd s (Cmd.batch rs)
  | PaintAct.single p t =>
    if s.grid.isValidPosition p.1 p.2 then
      executeCmd s
        (Cmd.paint { pos := p, oldTile := s.grid.tiles p.1 p.2, newTile := t })
    else s
  | PaintAct.undoA => undoQ s
  | PaintAct.redoA => redoQ s

/-- A fresh command log over a grid. -/
def initQueue (g : WorldState) : QueueState :=
  { grid := g, history := [], cursor := 0 }

/-- States reachable from a fresh log by paint strokes, single paints,
undos and redos. -/
inductive Reachable : QueueState → Prop where
  | init (g : WorldState) : Reachable (initQueue g)
  | step {s : QueueState} (a : PaintAct) : Reachable s → Reachable (stepAct s a)

/-- Replaying a command list in order. -/
def execList (g : WorldState) (cs : List Cmd) : WorldState :=
  cs.foldl (fun g c => c.execute g) g

/-- The history is a coherent chain over a base grid: undoing the `k`-th
command from the grid reached after `k+1` commands yields the grid reached
after `k` commands. -/
def chainFrom (gB : WorldState) (hist : List Cmd) : Prop :=
  ∀ k c, hist[k]? = some c →
    Cmd.undo c (execList gB (hist.take (k + 1))) = execList gB (hist.take k)

/-- Invariant of reachable command-log states: the history is bounded, the
cursor is within it, and the grid is the replay of the executed prefix over
some base grid whose chain is coherent. -/
def QueueInv (s : QueueState) : Prop :=
  s.history.length ≤ MAX_HISTORY ∧
  s.cursor ≤ s.history.length ∧
  ∃ gB, s.grid = execList gB (s.history.take s.cursor) ∧ chainFrom gB s.history

/-! ## Concrete grids used by counterexamples and witnesses -/

/-- A 3×3 grid whose only non-empty tile is a power plant at `(0,0)`. -/
def gridPlantOnly : WorldState where
  width := 3
  height := 3
  tiles := fun x y =>
    if x = 0 ∧ y = 0 then { type := TileType.POWER_PLANT } else { type := TileType.EMPTY }

/-- A 9×9 grid with a power plant at `(0,0)` and a residential zone at
`(0,4)` (Manhattan distance 4 from the plant). -/
def gridPlantRes : WorldState where
  width := 9
  height := 9
  tiles := fun x y =>
    if x = 0 ∧ y = 0 then { type := TileType.POWER_PLANT }
    else if x = 0 ∧ y = 4 then
      { type := TileType.RES, building := some { level := 0, unpoweredTime := 0 } }
    else { type := TileType.EMPTY }

/-- `EconomySystem`'s constructor stats: starting balance, zero counts,
base happiness. -/
def initialCityStats : CityStats :=
  { balance := EFloat.val STARTING_BALANCE
    population := 0
    jobs := 0
    shoppers := 0
    happiness := BASE_HAPPINESS }

/-- A 2×2 grid with a level-1 residential building at `(0,0)` (population
10) and a road at `(1,0)`; no power plants. -/
def gridEcon : WorldState where
  width := 2
  height := 2
  tiles := fun x y =>
    if x = 0 ∧ y = 0 then
      { type := TileType.RES, building := some { level := 1, unpoweredTime := 0 } }
    else if x = 1 ∧ y = 0 then { type := TileType.ROAD }
    else { type := TileType.EMPTY }

/-- A 2×2 grid with a residential zone at `(1,0)` that carries no building
record (as after a direct `setTile` that omitted it). -/
def gridResNoBuilding : WorldState where
  width := 2
  height := 2
  tiles := fun x y =>
    if x = 1 ∧ y = 0 then { type := TileType.RES, building := none }
    else { type := TileType.EMPTY }

end Pixelopolis

namespace Pixelopolis

/-- C7: for every tile coordinate pair, `worldToTile` applied to
`tileToWorld` returns exactly the original pair: the isometric forward
transform and its floor-rounded inverse compose to the identity on tile
coordinates (in particular on every in-bounds pair). -/
theorem worldToTile_tileToWorld (x y : ℤ) :
    WorldState.worldToTile (WorldState.tileToWorld x y).1
      (WorldState.tileToWorld x y).2 = (x, y) := by
  simp only [WorldState.worldToTile, WorldState.tileToWorld, TILE_WIDTH, TILE_HEIGHT]
  have h₁ : (((x : ℚ) - y) * (64 / 2) / (64 / 2) + ((x : ℚ) + y) * (32 / 2) / (32 / 2)) / 2
      = (x : ℚ) := by ring
  have h₂ : (((x : ℚ) + y) * (32 / 2) / (32 / 2) - ((x : ℚ) - y) * (64 / 2) / (64 / 2)) / 2
      = (y : ℚ) := by ring
  rw [h₁, h₂, Int.floor_intCast, Int.floor_intCast]

/-- The scan position list contains exactly the in-bounds coordinates. -/
lemma mem_positions {g : WorldState} {x y : ℕ} :
    (x, y) ∈ g.positions ↔ x < g.width ∧ y < g.height := by
  simp only [WorldState.positions, List.mem_flatMap, List.mem_map, List.mem_range]
  constructor
  · rintro ⟨b, hb, a, ha, h⟩
    cases h
    exact ⟨ha, hb⟩
  · rintro ⟨hx, hy⟩
    exact ⟨y, hy, x, hx, rfl⟩

/-- In-bounds reads return the stored tile. -/
lemma getTile_of_lt {g : WorldState} {x y : ℕ} (hx : x < g.width) (hy : y < g.height) :
    g.getTile x y = some (g.tiles x y) := by
  simp [WorldState.getTile, hx, hy]

/-- C2 (amended): after `recalculate()`, for every in-bounds `(x,y)`,
`isPowered(x,y)` is true iff the tile at `(x,y)` has a power-consuming type
(RESIDENTIAL, COMMERCIAL, INDUSTRIAL or ROAD) and its Manhattan distance to
some power plant is at most the fixed radius 8; non-consuming tiles (EMPTY,
POWER_PLANT) are never reported powered. -/
theorem isPowered_recalculate_iff (s : PowerGridState) (g : WorldState) (x y : ℕ)
    (hx : x < g.width) (hy : y < g.height) :
    PowerSystem.isPowered (PowerSystem.recalculate s g) x y = true ↔
      (consumesPower (g.tiles x y).type = true ∧
        ∃ p ∈ PowerSystem.findPowerPlants g,
          PowerSystem.manhattanDistance x y p.1 p.2 ≤ POWER_RADIUS) := by
  simp only [PowerSystem.isPowered, PowerSystem.recalculate, decide_eq_true_eq]
  rw [List.mem_filter]
  simp only [PowerSystem.poweredPred, getTile_of_lt hx hy, mem_positions,
    Bool.and_eq_true, PowerSystem.isWithinPowerRange, List.any_eq_true,
    decide_eq_true_eq]
  constructor
  · rintro ⟨-, hc, p, hp, hd⟩
    exact ⟨hc, p, hp, hd⟩
  · rintro ⟨hc, p, hp, hd⟩
    exact ⟨⟨hx, hy⟩, hc, p, hp, hd⟩

/-- Witness for C2's theorem at `gridPlantRes`, position `(0,4)`: in bounds,
and the residential tile four steps from the plant is powered. -/
theorem isPowered_recalculate_iff_witness :
    (0 < gridPlantRes.width ∧ 4 < gridPlantRes.height) ∧
      (PowerSystem.isPowered (PowerSystem.recalculate initialPowerState gridPlantRes) 0 4 = true ↔
        (consumesPower (gridPlantRes.tiles 0 4).type = true ∧
          ∃ p ∈ PowerSystem.findPowerPlants gridPlantRes,
            PowerSystem.manhattanDistance 0 4 p.1 p.2 ≤ POWER_RADIUS)) :=
  ⟨by decide,
    isPowered_recalculate_iff initialPowerState gridPlantRes 0 4 (by decide) (by decide)⟩

/-- C2 counterexample: in `gridPlantOnly` the power plant tile itself is at
Manhattan distance 0 ≤ 8 from a plant, yet `isPowered(0,0)` is false after
`recalculate()` (only power-consuming tile types enter the powered set), so
the claim's "for every tile position" biconditional fails. -/
theorem isPowered_recalculate_cex :
    ¬(PowerSystem.isPowered (PowerSystem.recalculate initialPowerState gridPlantOnly) 0 0 = true ↔
      ∃ p ∈ PowerSystem.findPowerPlants gridPlantOnly,
        PowerSystem.manhattanDistance 0 0 p.1 p.2 ≤ POWER_RADIUS) := by
  decide

/-- C9: `recalculate()` is idempotent — every field of the previous
`PowerGridState` is overwritten from the grid alone, so recomputing twice
with no grid mutation in between yields the state of a single recompute. -/
theorem recalculate_idempotent (s : PowerGridState) (g : WorldState) :
    PowerSystem.recalculate (PowerSystem.recalculate s g) g =
      PowerSystem.recalculate s g := rfl

/-- C3 (amended): after a stat recompute over any grid state, happiness is
`0.5 + 0.2` exactly when capacity and demand are both positive and the spare
capacity fraction `(capacity − demand)/capacity` is at least 10%, and `0.5`
otherwise; in particular the bonus is not applied when demand is zero or
capacity is zero.  (Both values already lie in `[0,1]`, so the clamp is the
identity here.) -/
theorem calculateHappiness_recalculate (s : PowerGridState) (g : WorldState) :
    EconomySystem.calculateHappiness (PowerSystem.recalculate s g).capacity
        (PowerSystem.recalculate s g).demand =
      if 0 < (PowerSystem.recalculate s g).capacity ∧
          0 < (PowerSystem.recalculate s g).demand ∧
          ((PowerSystem.recalculate s g).capacity -
              (PowerSystem.recalculate s g).demand : ℚ) /
            (PowerSystem.recalculate s g).capacity ≥ SPARE_CAPACITY_THRESHOLD
      then BASE_HAPPINESS + POWER_HAPPINESS_BONUS
      else BASE_HAPPINESS := by
  generalize (PowerSystem.recalculate s g).capacity = c
  generalize (PowerSystem.recalculate s g).demand = d
  unfold EconomySystem.calculateHappiness
  split_ifs with h1 h2 h3 h3 <;>
    simp_all [BASE_HAPPINESS, POWER_HAPPINESS_BONUS] <;> norm_num

/-! ### Growth engine lemmas -/

lemma setTile_width (g : WorldState) (x y : ℕ) (t : Tile) :
    (g.setTile x y t).width = g.width := by
  unfold WorldState.setTile; split_ifs <;> rfl

lemma setTile_height (g : WorldState) (x y : ℕ) (t : Tile) :
    (g.setTile x y t).height = g.height := by
  unfold WorldState.setTile; split_ifs <;> rfl

/-- The tile array after `setTile`: changed at an in-bounds target, unchanged
elsewhere. -/
lemma setTile_tiles (g : WorldState) (x y : ℕ) (t : Tile) (a b : ℕ) :
    (g.setTile x y t).tiles a b =
      if (x < g.width ∧ y < g.height) ∧ a = x ∧ b = y then t
      else g.tiles a b := by
  unfold WorldState.setTile
  by_cases hb : x < g.width ∧ y < g.height <;> simp [hb]

lemma getTile_eq_some_iff {g : WorldState} {x y : ℕ} {t : Tile} :
    g.getTile x y = some t ↔ (x < g.width ∧ y < g.height) ∧ t = g.tiles x y := by
  unfold WorldState.getTile
  split_ifs with h <;> simp [h, eq_comm]

/-- `processTile` always leaves a building record on the tile. -/
lemma processTile_isSome (powered : Bool) (hap : ℚ) (t : Tile) (rng : ℕ) :
    ((GrowthSystem.processTile powered hap t rng).1).building.isSome = true := by
  unfold GrowthSystem.processTile
  dsimp only
  split_ifs <;> rfl

/-- `processTile` never changes the tile's type. -/
lemma processTile_type (powered : Bool) (hap : ℚ) (t : Tile) (rng : ℕ) :
    ((GrowthSystem.processTile powered hap t rng).1).type = t.type := by
  unfold GrowthSystem.processTile
  dsimp only
  split_ifs <;> rfl

/-- The grid component of one growth iteration. -/
lemma growthStep_fst (powered : ℕ → ℕ → Bool) (hap : ℚ) (acc : GrowthSystem.GAcc)
    (p : ℕ × ℕ) :
    (GrowthSystem.growthStep powered hap acc p).1 =
      match (acc.1).getTile p.1 p.2 with
      | none => acc.1
      | some t =>
        if canHaveBuildings t.type = true then
          acc.1.setTile p.1 p.2
            (GrowthSystem.processTile (powered p.1 p.2) hap t acc.2.1).1
        else acc.1 := by
  unfold GrowthSystem.growthStep
  cases (acc.1).getTile p.1 p.2 with
  | none => rfl
  | some t =>
    dsimp only
    split_ifs <;> rfl

lemma growthStep_width (powered : ℕ → ℕ → Bool) (hap : ℚ) (acc : GrowthSystem.GAcc)
    (p : ℕ × ℕ) :
    ((GrowthSystem.growthStep powered hap acc p).1).width = acc.1.width := by
  rw [growthStep_fst]
  cases (acc.1).getTile p.1 p.2 with
  | none => rfl
  | some t =>
    dsimp only
    split_ifs <;> simp [setTile_width]

lemma growthStep_height (powered : ℕ → ℕ → Bool) (hap : ℚ) (acc : GrowthSystem.GAcc)
    (p : ℕ × ℕ) :
    ((GrowthSystem.growthStep powered hap acc p).1).height = acc.1.height := by
  rw [growthStep_fst]
  cases (acc.1).getTile p.1 p.2 with
  | none => rfl
  | some t =>
    dsimp only
    split_ifs <;> simp [setTile_height]

/-- One growth iteration preserves every tile's type. -/
lemma growthStep_type (powered : ℕ → ℕ → Bool) (hap : ℚ) (acc : GrowthSystem.GAcc)
    (p : ℕ × ℕ) (a b : ℕ) :
    (((GrowthSystem.growthStep powered hap acc p).1).tiles a b).type =
      ((acc.1).tiles a b).type := by
  rw [growthStep_fst]
  cases hg : (acc.1).getTile p.1 p.2 with
  | none => rfl
  | some t =>
    obtain ⟨hb, rfl⟩ := getTile_eq_some_iff.mp hg
    dsimp only
    split_ifs with h1
    · rw [setTile_tiles]
      split_ifs with h2
      · obtain ⟨-, rfl, rfl⟩ := h2
        exact processTile_type ..
      · rfl
    · rfl

/-- One growth iteration establishes a building record at the position it
visits, when that position is in bounds and zoned. -/
lemma growthStep_establish (powered : ℕ → ℕ → Bool) (hap : ℚ)
    (acc : GrowthSystem.GAcc) (a b : ℕ)
    (ha : a < acc.1.width) (hb : b < acc.1.height)
    (hz : canHaveBuildings ((acc.1).tiles a b).type = true) :
    (((GrowthSystem.growthStep powered hap acc (a, b)).1).tiles a b).building.isSome
      = true := by
  rw [growthStep_fst]
  dsimp only
  cases hg : (acc.1).getTile a b with
  | none =>
    exfalso
    simp [WorldState.getTile, ha, hb] at hg
  | some t =>
    obtain ⟨-, rfl⟩ := getTile_eq_some_iff.mp hg
    dsimp only
    rw [if_pos hz, setTile_tiles]
    split_ifs with h2
    · exact processTile_isSome ..
    · exact absurd ⟨⟨ha, hb⟩, rfl, rfl⟩ h2

/-- One growth iteration preserves the presence of a building record. -/
lemma growthStep_preserve (powered : ℕ → ℕ → Bool) (hap : ℚ)
    (acc : GrowthSystem.GAcc) (p : ℕ × ℕ) (a b : ℕ)
    (hs : ((acc.1).tiles a b).building.isSome = true) :
    (((GrowthSystem.growthStep powered hap acc p).1).tiles a b).building.isSome
      = true := by
  rw [growthStep_fst]
  cases hg : (acc.1).getTile p.1 p.2 with
  | none => exact hs
  | some t =>
    obtain ⟨hbnd, rfl⟩ := getTile_eq_some_iff.mp hg
    dsimp only
    split_ifs with h1
    · rw [setTile_tiles]
      split_ifs with h2
      · exact processTile_isSome ..
      · exact hs
    · exact hs

/-- Fold version: after scanning a position list, any in-bounds zoned
position that is either visited by the list or already carries a building
record carries one afterwards. -/
lemma foldl_growth_isSome (powered : ℕ → ℕ → Bool) (hap : ℚ) :
    ∀ (l : List (ℕ × ℕ)) (acc : GrowthSystem.GAcc) (a b : ℕ),
      a < acc.1.width → b < acc.1.height →
      ((a, b) ∈ l ∨ ((acc.1).tiles a b).building.isSome = true) →
      canHaveBuildings ((acc.1).tiles a b).type = true →
      (((l.foldl (GrowthSystem.growthStep powered hap) acc).1).tiles a b).building.isSome
        = true := by
  intro l
  induction l with
  | nil =>
    intro acc a b _ _ hmem _
    rcases hmem with h | h
    · cases h
    · exact h
  | cons p rest ih =>
    intro acc a b ha hb hmem hz
    rw [List.foldl_cons]
    have ha' : a < ((GrowthSystem.growthStep powered hap acc p).1).width := by
      rw [growthStep_width]; exact ha
    have hb' : b < ((GrowthSystem.growthStep powered hap acc p).1).height := by
      rw [growthStep_height]; exact hb
    have hz' : canHaveBuildings
        (((GrowthSystem.growthStep powered hap acc p).1).tiles a b).type = true := by
      rw [growthStep_type]; exact hz
    rcases hmem with hmem | hsome
    · rcases List.mem_cons.mp hmem with hph | hrest
      · refine ih _ a b ha' hb' (Or.inr ?_) hz'
        cases hph
        exact growthStep_establish powered hap acc a b ha hb hz
      · exact ih _ a b ha' hb' (Or.inl hrest) hz'
    · exact ih _ a b ha' hb' (Or.inr (growthStep_preserve powered hap acc p a b hsome)) hz'

/-- C10: if a zone-typed tile reaches a growth tick without a building
record, `processGrowth` repairs it (creating a level-0 record with a zero
unpowered timer) rather than skipping or throwing: after any growth tick,
every in-bounds zoned tile carries a building record. -/
theorem processGrowth_building_present (g : WorldState) (powered : ℕ → ℕ → Bool)
    (hap : ℚ) (rng : ℕ) (x y : ℕ)
    (hx : x < g.width) (hy : y < g.height)
    (hz : canHaveBuildings (g.tiles x y).type = true) :
    (((GrowthSystem.processGrowth g powered hap rng).1).tiles x y).building.isSome
      = true := by
  unfold GrowthSystem.processGrowth
  exact foldl_growth_isSome powered hap g.positions (g, rng, []) x y hx hy
    (Or.inl (mem_positions.mpr ⟨hx, hy⟩)) hz

/-- Witness for C10 at `gridResNoBuilding`: the residential tile `(1,0)` has
no building record before the tick, and one after. -/
theorem processGrowth_building_present_witness :
    (1 < gridResNoBuilding.width ∧ 0 < gridResNoBuilding.height ∧
      canHaveBuildings (gridResNoBuilding.tiles 1 0).type = true ∧
      (gridResNoBuilding.tiles 1 0).building = none) ∧
    (((GrowthSystem.processGrowth gridResNoBuilding (fun _ _ => false) 0 1).1).tiles
        1 0).building.isSome = true :=
  ⟨by decide,
    processGrowth_building_present gridResNoBuilding (fun _ _ => false) 0 1 1 0
      (by decide) (by decide) (by decide)⟩

/-- C5: at a growth tick, a zoned tile whose (updated) unpowered-time
accumulator is at least the 30-second threshold and whose level is positive
is abandoned: the level drops by exactly 1, the timer resets to 0, the
change is reported, and the RNG is not consumed — no spawn or upgrade can
happen for that tile in the same tick. -/
theorem processTile_abandonment (powered : Bool) (hap : ℚ) (t : Tile)
    (b : BuildingData) (rng : ℕ)
    (hb : t.building = some b)
    (hu : (if powered then 0 else b.unpoweredTime + TICK_INTERVAL / 1000)
      ≥ ABANDONMENT_TIME)
    (hl : 0 < b.level) :
    GrowthSystem.processTile powered hap t rng =
      ({ t with building := some { level := b.level - 1, unpoweredTime := 0 } },
        rng, true) := by
  unfold GrowthSystem.processTile
  rw [hb]
  cases powered with
  | true =>
    exfalso
    simp only [if_true] at hu
    have : (0 : ℚ) < ABANDONMENT_TIME := by norm_num [ABANDONMENT_TIME]
    linarith
  | false =>
    simp only [Bool.false_eq_true, if_false, Option.getD_some]
    rw [if_pos ⟨hu, hl⟩]

/-- Witness for C5: an unpowered residential tile at level 2 with 31 seconds
on the unpowered timer is abandoned to level 1 with the timer reset to 0 and
the RNG untouched. -/
theorem processTile_abandonment_witness :
    (({ type := TileType.RES,
        building := some { level := 2, unpoweredTime := 31 } } : Tile).building
        = some { level := 2, unpoweredTime := 31 } ∧
      ((if false then 0 else (31 : ℚ) + TICK_INTERVAL / 1000) ≥ ABANDONMENT_TIME) ∧
      0 < 2) ∧
    GrowthSystem.processTile false 0
        { type := TileType.RES, building := some { level := 2, unpoweredTime := 31 } } 7 =
      ({ type := TileType.RES, building := some { level := 1, unpoweredTime := 0 } },
        7, true) :=
  ⟨⟨rfl, by norm_num [TICK_INTERVAL, ABANDONMENT_TIME], by norm_num⟩,
    processTile_abandonment false 0
      { type := TileType.RES, building := some { level := 2, unpoweredTime := 31 } }
      { level := 2, unpoweredTime := 31 } 7 rfl
      (by norm_num [TICK_INTERVAL, ABANDONMENT_TIME]) (by norm_num)⟩

/-- C4: the growth engine is deterministic — replaying the same tick count
from the same initial grid and the same seed produces the same level-change
sequences, and all randomness flows through the LCG
`next = (1664525 · current + 1013904223) mod 2^32` with output
`next / 2^32`. -/
theorem simReplay_deterministic (g₁ g₂ : WorldState) (s₁ s₂ n₁ n₂ : ℕ)
    (hg : g₁ = g₂) (hs : s₁ = s₂) (hn : n₁ = n₂) :
    GrowthSystem.simReplay g₁ s₁ n₁ = GrowthSystem.simReplay g₂ s₂ n₂ ∧
    (∀ c, RNG.next c = (1664525 * c + 1013904223) % 2 ^ 32 ∧
      RNG.output c = (RNG.next c : ℚ) / 2 ^ 32) := by
  subst hg; subst hs; subst hn
  exact ⟨rfl, fun _ => ⟨rfl, rfl⟩⟩

/-- Witness for C4 at a concrete grid, seed and tick count. -/
theorem simReplay_deterministic_witness :
    (gridPlantRes = gridPlantRes ∧ (42 : ℕ) = 42 ∧ (3 : ℕ) = 3) ∧
    (GrowthSystem.simReplay gridPlantRes 42 3 = GrowthSystem.simReplay gridPlantRes 42 3 ∧
      (∀ c, RNG.next c = (1664525 * c + 1013904223) % 2 ^ 32 ∧
        RNG.output c = (RNG.next c : ℚ) / 2 ^ 32)) :=
  ⟨⟨rfl, rfl, rfl⟩, simReplay_deterministic gridPlantRes gridPlantRes 42 42 3 3 rfl rfl rfl⟩

/-- C3 counterexample: the grid with a single plant and no consumers has
capacity 200 and demand 0, whose spare capacity (the full 200) exceeds 10%
of capacity, yet the computed happiness is the base 0.5, not 0.5 + 0.2: the
source's `demand > 0` guard blocks the bonus, refuting the claim's "including
states where demand is zero". -/
theorem calculateHappiness_cex :
    (PowerSystem.recalculate initialPowerState gridPlantOnly).capacity = 200 ∧
    (PowerSystem.recalculate initialPowerState gridPlantOnly).demand = 0 ∧
    ((200 : ℚ) - 0 ≥ SPARE_CAPACITY_THRESHOLD * 200) ∧
    EconomySystem.calculateHappiness 200 0 = BASE_HAPPINESS ∧
    BASE_HAPPINESS ≠ BASE_HAPPINESS + POWER_HAPPINESS_BONUS := by
  refine ⟨by decide, by decide, by norm_num [SPARE_CAPACITY_THRESHOLD], ?_, ?_⟩
  · norm_num [EconomySystem.calculateHappiness, BASE_HAPPINESS]
  · norm_num [BASE_HAPPINESS, POWER_HAPPINESS_BONUS]

/-! ### Economy tax lemmas -/

/-- The tax-collection condition at tick `n+1` from `lastTaxTime = 3·(n/30)`
holds exactly when `n+1` is a multiple of 30 ticks, i.e. every 3 simulated
seconds of cumulative tick time. -/
lemma tax_condition (n : ℕ) :
    (((n + 1 : ℕ) : ℚ) * (TICK_INTERVAL / 1000) - 3 * ((n / 30 : ℕ) : ℚ)
        ≥ TAX_INTERVAL) ↔ (n + 1) % 30 = 0 := by
  rw [TICK_INTERVAL, TAX_INTERVAL]
  have hm : n % 30 < 30 := Nat.mod_lt _ (by norm_num)
  have hd := Nat.div_add_mod n 30
  constructor
  · intro h
    have h10 : ((n : ℚ) + 1) ≥ 30 * ((n / 30 : ℕ) : ℚ) + 30 := by
      push_cast at h ⊢
      linarith
    have hnat : n + 1 ≥ 30 * (n / 30) + 30 := by exact_mod_cast h10
    omega
  · intro h
    have h1 : n + 1 = 30 * (n / 30) + 30 := by omega
    have h2 : ((n + 1 : ℕ) : ℚ) = 30 * ((n / 30 : ℕ) : ℚ) + 30 := by
      exact_mod_cast h1
    rw [h2]
    ring_nf
    linarith

/-- `collectTaxes` on a finite balance adds exactly income minus upkeep. -/
lemma collectTaxes_val (x : ℚ) (pop jobs shop : ℕ) (g : WorldState) :
    EconomySystem.collectTaxes (EFloat.val x) pop jobs shop g =
      EFloat.val (x + (((pop * TAX_PER_POPULATION + shop * TAX_PER_SHOPPER +
          jobs * TAX_PER_JOB : ℕ) : ℚ) -
        ((g.countTiles TileType.ROAD * UPKEEP_PER_ROAD +
          g.countTiles TileType.POWER_PLANT * UPKEEP_PER_PLANT : ℕ) : ℚ))) := rfl

/-- After `n` ticks from a fresh tax clock and a finite balance `b`, the
balance is `b` plus one net income per completed 30-tick (3-second) tax
interval, and the tax clock reads 3 seconds per completed interval. -/
lemma econRun_spec (g : WorldState) (power : PowerGridState) (st : CityStats)
    (b : ℚ) (n : ℕ) :
    (EconomySystem.econRun g power ({ st with balance := EFloat.val b }, 0) n).1.balance
        = EFloat.val (b + ((n / 30 : ℕ) : ℚ) *
            ((((EconomySystem.calculateStats g).1 * TAX_PER_POPULATION +
                (EconomySystem.calculateStats g).2.2 * TAX_PER_SHOPPER +
                (EconomySystem.calculateStats g).2.1 * TAX_PER_JOB : ℕ) : ℚ) -
              ((g.countTiles TileType.ROAD * UPKEEP_PER_ROAD +
                g.countTiles TileType.POWER_PLANT * UPKEEP_PER_PLANT : ℕ) : ℚ))) ∧
    (EconomySystem.econRun g power ({ st with balance := EFloat.val b }, 0) n).2
        = 3 * ((n / 30 : ℕ) : ℚ) := by
  induction n with
  | zero => simp [EconomySystem.econRun]
  | succ n ih =>
    obtain ⟨ihb, ihl⟩ := ih
    have hstep :
        EconomySystem.econRun g power ({ st with balance := EFloat.val b }, 0) (n + 1)
          = EconomySystem.onTick g power
              (EconomySystem.econRun g power ({ st with balance := EFloat.val b }, 0) n).1
              (EconomySystem.econRun g power ({ st with balance := EFloat.val b }, 0) n).2
              (n + 1) := by
      unfold EconomySystem.econRun
      rw [List.range_succ, List.foldl_append, List.foldl_cons, List.foldl_nil]
    rw [hstep, ihl]
    unfold EconomySystem.onTick
    by_cases hc : (n + 1) % 30 = 0
    · rw [if_pos ((tax_condition n).mpr hc)]
      dsimp only
      rw [ihb, collectTaxes_val]
      have h30 : (n + 1) / 30 = n / 30 + 1 := by omega
      have h31 : n + 1 = 30 * (n / 30) + 30 := by omega
      constructor
      · rw [h30]
        push_cast
        ring_nf
      · have : ((n + 1 : ℕ) : ℚ) = 30 * ((n / 30 : ℕ) : ℚ) + 30 := by
          exact_mod_cast h31
        rw [h30, this, TICK_INTERVAL]
        push_cast
        ring
    · rw [if_neg (fun h => hc ((tax_condition n).mp h))]
      dsimp only
      have h30 : (n + 1) / 30 = n / 30 := by omega
      rw [h30]
      exact ⟨ihb, rfl⟩

/-- C6: tax collection fires once per 30 ticks (3 simulated seconds of
cumulative tick time) and each collection changes the balance by exactly
`income − upkeep` with `income = population×2 + shoppers×1 + jobs×1` and
`upkeep = roads×1 + plants×5`; a `NaN` balance is reset to 0 by the guard;
and on the concrete grid with population 10, no jobs or shoppers, one road
and no plants, each tax interval adds exactly +19. -/
theorem economy_taxes (g : WorldState) (power : PowerGridState) (st : CityStats)
    (b : ℚ) (n : ℕ) :
    ((EconomySystem.econRun g power ({ st with balance := EFloat.val b }, 0) n).1.balance
        = EFloat.val (b + ((n / 30 : ℕ) : ℚ) *
            ((((EconomySystem.calculateStats g).1 * TAX_PER_POPULATION +
                (EconomySystem.calculateStats g).2.2 * TAX_PER_SHOPPER +
                (EconomySystem.calculateStats g).2.1 * TAX_PER_JOB : ℕ) : ℚ) -
              ((g.countTiles TileType.ROAD * UPKEEP_PER_ROAD +
                g.countTiles TileType.POWER_PLANT * UPKEEP_PER_PLANT : ℕ) : ℚ))) ∧
      (EconomySystem.econRun g power ({ st with balance := EFloat.val b }, 0) n).2
        = 3 * ((n / 30 : ℕ) : ℚ)) ∧
    (∀ pop jobs shop,
      EconomySystem.collectTaxes EFloat.nan pop jobs shop g = EFloat.val 0) ∧
    ((EconomySystem.econRun gridEcon initialPowerState
        ({ initialCityStats with balance := EFloat.val STARTING_BALANCE }, 0) 30).1.balance
      = EFloat.val (STARTING_BALANCE + 19)) := by
  refine ⟨econRun_spec g power st b n, fun pop jobs shop => rfl, ?_⟩
  have h := (econRun_spec gridEcon initialPowerState initialCityStats
    STARTING_BALANCE 30).1
  rw [h]
  norm_num [show EconomySystem.calculateStats gridEcon = (10, 0, 0) from rfl,
    show gridEcon.countTiles TileType.ROAD = 1 from rfl,
    show gridEcon.countTiles TileType.POWER_PLANT = 0 from rfl,
    TAX_PER_POPULATION, TAX_PER_SHOPPER, TAX_PER_JOB, UPKEEP_PER_ROAD,
    UPKEEP_PER_PLANT]


/-! ### Tick scheduler (C1) -/

/-- The tick loop on an accumulator of exactly `n` whole intervals plus a
remainder below one interval fires exactly `n` ticks and leaves the
remainder, given at least `n` fuel. -/
lemma drainTicks_exact : ∀ n fuel : ℕ, n ≤ fuel → ∀ r : ℚ, 0 ≤ r →
    r < TICK_INTERVAL / 1000 →
    SimulationSystem.drainTicks fuel ((n : ℚ) * (TICK_INTERVAL / 1000) + r) = (n, r) := by
  intro n
  induction n with
  | zero =>
    intro fuel _ r h0 hr
    have e : ((0 : ℕ) : ℚ) * (TICK_INTERVAL / 1000) + r = r := by push_cast; ring
    rw [e]
    cases fuel with
    | zero => rfl
    | succ fuel =>
      unfold SimulationSystem.drainTicks
      rw [if_neg (not_le.mpr hr)]
  | succ n ih =>
    intro fuel hf r h0 hr
    cases fuel with
    | zero => omega
    | succ fuel =>
      unfold SimulationSystem.drainTicks
      have hc : (0 : ℚ) < TICK_INTERVAL / 1000 := by rw [TICK_INTERVAL]; norm_num
      have hn : (0 : ℚ) ≤ (n : ℚ) * (TICK_INTERVAL / 1000) := by positivity
      have hguard : ((n + 1 : ℕ) : ℚ) * (TICK_INTERVAL / 1000) + r
          ≥ TICK_INTERVAL / 1000 := by
        push_cast
        nlinarith
      rw [if_pos hguard]
      have e : ((n + 1 : ℕ) : ℚ) * (TICK_INTERVAL / 1000) + r - TICK_INTERVAL / 1000
          = (n : ℚ) * (TICK_INTERVAL / 1000) + r := by push_cast; ring
      rw [e, ih fuel (by omega) r h0 hr]

/-- `fireTicks` on `n` whole intervals plus a sub-interval remainder: the
fuel bound `(acc·10).num + 1` always suffices. -/
lemma fireTicks_exact (n : ℕ) (r : ℚ) (h0 : 0 ≤ r) (hr : r < TICK_INTERVAL / 1000) :
    SimulationSystem.fireTicks ((n : ℚ) * (TICK_INTERVAL / 1000) + r) = (n, r) := by
  unfold SimulationSystem.fireTicks
  refine drainTicks_exact n _ ?_ r h0 hr
  set q : ℚ := ((n : ℚ) * (TICK_INTERVAL / 1000) + r) * 10 with hq
  have hq0 : (0 : ℚ) ≤ q := by
    rw [hq, TICK_INTERVAL]
    positivity
  have hge : (n : ℚ) ≤ q := by
    rw [hq, TICK_INTERVAL]
    nlinarith
  have h1 : (n : ℤ) ≤ ⌊q⌋ := Int.le_floor.mpr (by exact_mod_cast hge)
  have h2 : ⌊q⌋ ≤ q.num := by
    rw [Rat.floor_def]
    exact Int.ediv_le_self _ (Rat.num_nonneg.mpr hq0)
  omega

/-- The pause/resume scenario, fully evaluated: initialize at `t₀`, pause,
probe at `t₁` while paused (a no-op), resume, update at `t₂`.  The paused
probe changes nothing, and the post-resume update fires the ticks of the
whole span `t₂ − t₀`. -/
lemma resume_run (t₀ t₁ t₂ : ℚ) (h₀ : t₀ ≠ 0) :
    SimulationSystem.update
        (SimulationSystem.toggleRunning
          (SimulationSystem.update SimulationSystem.initState t₀)) t₁
      = SimulationSystem.toggleRunning
          (SimulationSystem.update SimulationSystem.initState t₀) ∧
    (SimulationSystem.update
        (SimulationSystem.toggleRunning
          (SimulationSystem.update
            (SimulationSystem.toggleRunning
              (SimulationSystem.update SimulationSystem.initState t₀)) t₁))
        t₂).tickCount
      = (SimulationSystem.fireTicks ((t₂ - t₀) / 1000)).1 := by
  have h1 : SimulationSystem.update SimulationSystem.initState t₀
      = { isRunning := true, tickCount := 0, accumulator := 0, lastTime := t₀ } := by
    simp [SimulationSystem.update, SimulationSystem.initState]
  rw [h1]
  have h2 : SimulationSystem.toggleRunning
      { isRunning := true, tickCount := 0, accumulator := 0, lastTime := t₀ }
      = { isRunning := false, tickCount := 0, accumulator := 0, lastTime := t₀ } := rfl
  rw [h2]
  have h3 : SimulationSystem.update
      { isRunning := false, tickCount := 0, accumulator := 0, lastTime := t₀ } t₁
      = { isRunning := false, tickCount := 0, accumulator := 0, lastTime := t₀ } := by
    simp [SimulationSystem.update]
  refine ⟨h3, ?_⟩
  rw [h3]
  have h4 : SimulationSystem.toggleRunning
      { isRunning := false, tickCount := 0, accumulator := 0, lastTime := t₀ }
      = { isRunning := true, tickCount := 0, accumulator := 0, lastTime := t₀ } := rfl
  rw [h4]
  simp [SimulationSystem.update, h₀]

/-- C1 (amended): while paused, `update` fires no ticks and changes nothing;
but the paused wall-clock time is **not** discarded — `lastTime` stays
frozen during the pause, so the first `update` after resume accumulates the
entire interval since the last update processed while running (paused time
included) and fires catch-up ticks for all of it. -/
theorem update_after_resume (t₀ t₁ t₂ : ℚ) (h₀ : t₀ ≠ 0) :
    SimulationSystem.update
        (SimulationSystem.toggleRunning
          (SimulationSystem.update SimulationSystem.initState t₀)) t₁
      = SimulationSystem.toggleRunning
          (SimulationSystem.update SimulationSystem.initState t₀) ∧
    (SimulationSystem.update
        (SimulationSystem.toggleRunning
          (SimulationSystem.update
            (SimulationSystem.toggleRunning
              (SimulationSystem.update SimulationSystem.initState t₀)) t₁))
        t₂).tickCount
      = (SimulationSystem.fireTicks ((t₂ - t₀) / 1000)).1 :=
  resume_run t₀ t₁ t₂ h₀

/-- Witness for C1's amended theorem: pause at 1000 ms, a paused update at
6000 ms does nothing, and the update at 6100 ms fires ticks for the whole
5100 ms span since 1000 ms. -/
theorem update_after_resume_witness :
    ((1000 : ℚ) ≠ 0) ∧
    (SimulationSystem.update
        (SimulationSystem.toggleRunning
          (SimulationSystem.update SimulationSystem.initState 1000)) 6000
      = SimulationSystem.toggleRunning
          (SimulationSystem.update SimulationSystem.initState 1000) ∧
    (SimulationSystem.update
        (SimulationSystem.toggleRunning
          (SimulationSystem.update
            (SimulationSystem.toggleRunning
              (SimulationSystem.update SimulationSystem.initState 1000)) 6000))
        6100).tickCount
      = (SimulationSystem.fireTicks (((6100 : ℚ) - 1000) / 1000)).1) :=
  ⟨by norm_num, update_after_resume 1000 6000 6100 (by norm_num)⟩

/-- C1 counterexample: two runs with the same 100 ms between the last paused
probe and the post-resume update, but pause gaps of 100 ms versus 10100 ms.
If paused time were discarded, the first update after resume would fire the
same number of ticks in both runs; instead it fires 2 and 102 ticks — the
count grows with the length of the paused interval. -/
theorem update_after_resume_cex :
    (SimulationSystem.update
        (SimulationSystem.toggleRunning
          (SimulationSystem.update
            (SimulationSystem.toggleRunning
              (SimulationSystem.update SimulationSystem.initState 1000)) 1100))
        1200).tickCount = 2 ∧
    (SimulationSystem.update
        (SimulationSystem.toggleRunning
          (SimulationSystem.update
            (SimulationSystem.toggleRunning
              (SimulationSystem.update SimulationSystem.initState 1000)) 11100))
        11200).tickCount = 102 ∧
    (2 : ℕ) ≠ 102 := by
  obtain ⟨-, hA⟩ := resume_run 1000 1100 1200 (by norm_num)
  obtain ⟨-, hB⟩ := resume_run 1000 11100 11200 (by norm_num)
  refine ⟨?_, ?_, by norm_num⟩
  · rw [hA]
    have e : ((1200 : ℚ) - 1000) / 1000 = ((2 : ℕ) : ℚ) * (TICK_INTERVAL / 1000) + 0 := by
      rw [TICK_INTERVAL]; norm_num
    rw [e, fireTicks_exact 2 0 le_rfl (by rw [TICK_INTERVAL]; norm_num)]
  · rw [hB]
    have e : ((11200 : ℚ) - 1000) / 1000 = ((102 : ℕ) : ℚ) * (TICK_INTERVAL / 1000) + 0 := by
      rw [TICK_INTERVAL]; norm_num
    rw [e, fireTicks_exact 102 0 le_rfl (by rw [TICK_INTERVAL]; norm_num)]


/-! ### Command/undo log (C8) -/

/-- Extensionality for grids. -/
lemma worldStateExt {g₁ g₂ : WorldState} (hw : g₁.width = g₂.width)
    (hh : g₁.height = g₂.height) (ht : ∀ a b, g₁.tiles a b = g₂.tiles a b) :
    g₁ = g₂ := by
  cases g₁
  cases g₂
  dsimp at hw hh ht
  subst hw
  subst hh
  congr 1
  funext a b
  exact ht a b

/-- Writing a tile's current value back is a no-op. -/
lemma setTile_get_self (g : WorldState) (x y : ℕ) :
    g.setTile x y (g.tiles x y) = g := by
  refine worldStateExt (setTile_width ..) (setTile_height ..) ?_
  intro a b
  rw [setTile_tiles]
  split_ifs with h
  · obtain ⟨-, rfl, rfl⟩ := h
    rfl
  · rfl

/-- The second of two writes to the same position wins. -/
lemma setTile_setTile (g : WorldState) (x y : ℕ) (t₁ t₂ : Tile) :
    (g.setTile x y t₁).setTile x y t₂ = g.setTile x y t₂ := by
  refine worldStateExt ?_ ?_ ?_
  · rw [setTile_width, setTile_width, setTile_width]
  · rw [setTile_height, setTile_height, setTile_height]
  · intro a b
    simp only [setTile_tiles, setTile_width, setTile_height]
    split_ifs <;> rfl

lemma execList_append (gB : WorldState) (l₁ l₂ : List Cmd) :
    execList gB (l₁ ++ l₂) = execList (execList gB l₁) l₂ := by
  unfold execList
  rw [List.foldl_append]

lemma execList_concat (gB : WorldState) (l : List Cmd) (c : Cmd) :
    execList gB (l ++ [c]) = Cmd.execute c (execList gB l) := by
  rw [execList_append]
  rfl

/-- A single-tile paint command whose `oldTile` is the tile current at
execution time undoes its own execution. -/
lemma paint_consistent (g : WorldState) (p : ℕ × ℕ) (t : Tile) :
    Cmd.undo (Cmd.paint { pos := p, oldTile := g.tiles p.1 p.2, newTile := t })
      (Cmd.execute (Cmd.paint { pos := p, oldTile := g.tiles p.1 p.2, newTile := t }) g)
      = g := by
  show (g.setTile p.1 p.2 t).setTile p.1 p.2 (g.tiles p.1 p.2) = g
  rw [setTile_setTile, setTile_get_self]

/-- A batch built by a brush stroke (each record capturing the then-current
tile and applying immediately) undoes its own execution: the reverse-order
undo exactly inverts the in-order execution. -/
lemma mkBatch_consistent : ∀ (ws : List ((ℕ × ℕ) × Tile)) (g : WorldState),
    Cmd.undo (Cmd.batch (mkBatch g ws))
      (Cmd.execute (Cmd.batch (mkBatch g ws)) g) = g := by
  intro ws
  induction ws with
  | nil => intro g; rfl
  | cons w ws ih =>
    intro g
    unfold mkBatch
    by_cases hv : g.isValidPosition w.1.1 w.1.2 = true
    · rw [if_pos hv]
      simp only [Cmd.execute, Cmd.undo, List.foldl_cons, List.foldr_cons]
      have ih' := ih (g.setTile w.1.1 w.1.2 w.2)
      simp only [Cmd.execute, Cmd.undo] at ih'
      rw [show execRec g { pos := w.1, oldTile := g.tiles w.1.1 w.1.2, newTile := w.2 }
          = g.setTile w.1.1 w.1.2 w.2 from rfl]
      rw [ih']
      show (g.setTile w.1.1 w.1.2 w.2).setTile w.1.1 w.1.2 (g.tiles w.1.1 w.1.2) = g
      rw [setTile_setTile, setTile_get_self]
    · rw [if_neg hv]
      exact ih g

/-- `CommandQueue.execute` preserves the invariant when given a command
that undoes its own execution on the current grid. -/
lemma inv_executeCmd (s : QueueState) (c : Cmd) (h : QueueInv s)
    (hc : Cmd.undo c (Cmd.execute c s.grid) = s.grid) :
    QueueInv (executeCmd s c) := by
  obtain ⟨hlen, hcur, gB, hgrid, hchain⟩ := h
  have hAlen : (s.history.take s.cursor).length = s.cursor := by
    rw [List.length_take]
    omega
  have hlen1 : (s.history.take s.cursor ++ [c]).length = s.cursor + 1 := by
    rw [List.length_append, hAlen]
    rfl
  have hgrid1 : Cmd.execute c s.grid
      = execList gB (s.history.take s.cursor ++ [c]) := by
    rw [execList_concat, hgrid]
  have htake : ∀ j, j ≤ s.cursor →
      (s.history.take s.cursor ++ [c]).take j = s.history.take j := by
    intro j hj
    rw [List.take_append_of_le_length (by rw [hAlen]; exact hj), List.take_take]
    congr 1
    omega
  have htakefull : (s.history.take s.cursor ++ [c]).take (s.cursor + 1)
      = s.history.take s.cursor ++ [c] :=
    List.take_of_length_le (by rw [hlen1])
  have hchain1 : chainFrom gB (s.history.take s.cursor ++ [c]) := by
    intro k ck hck
    have hkb : k < s.cursor + 1 := by
      have := List.getElem?_eq_some_iff.mp hck
      obtain ⟨hlt, -⟩ := this
      rw [hlen1] at hlt
      exact hlt
    rcases lt_or_ge k s.cursor with hkc | hkc
    · have h1 : (s.history.take s.cursor ++ [c])[k]? = s.history[k]? := by
        rw [List.getElem?_append, if_pos (by rw [hAlen]; exact hkc),
          List.getElem?_take, if_pos hkc]
      rw [h1] at hck
      rw [htake (k + 1) (by omega), htake k (by omega)]
      exact hchain k ck hck
    · have hk : k = s.cursor := by omega
      subst hk
      have hcc : ck = c := by
        rw [List.getElem?_append, if_neg (by rw [hAlen]; omega), hAlen] at hck
        simp at hck
        exact hck.symm
      subst hcc
      rw [htakefull, htake s.cursor le_rfl, ← hgrid1, ← hgrid]
      exact hc
  unfold executeCmd
  by_cases hover : MAX_HISTORY < (s.history.take s.cursor ++ [c]).length
  · rw [if_pos hover]
    have hc100 : s.cursor = MAX_HISTORY := by
      rw [hlen1] at hover
      unfold MAX_HISTORY at *
      omega
    obtain ⟨c₀, rest, hcons⟩ : ∃ c₀ rest,
        s.history.take s.cursor ++ [c] = c₀ :: rest := by
      cases hh : s.history.take s.cursor ++ [c] with
      | nil => exact absurd hh (by simp)
      | cons a l => exact ⟨a, l, rfl⟩
    have hrest : rest.length = s.cursor := by
      have h2 := hlen1
      rw [hcons] at h2
      simpa using h2
    have hshift : ∀ m, execList (Cmd.execute c₀ gB) (rest.take m)
        = execList gB ((c₀ :: rest).take (m + 1)) := by
      intro m
      rw [List.take_succ_cons]
      rfl
    have hgrid2 : Cmd.execute c s.grid = execList gB (c₀ :: rest) := by
      rw [hgrid1, hcons]
    have hchain2 : chainFrom gB (c₀ :: rest) := by
      rw [← hcons]
      exact hchain1
    refine ⟨?_, ?_, Cmd.execute c₀ gB, ?_, ?_⟩
    · show (s.history.take s.cursor ++ [c]).tail.length ≤ MAX_HISTORY
      rw [hcons, List.tail_cons]
      omega
    · show s.cursor + 1 - 1 ≤ (s.history.take s.cursor ++ [c]).tail.length
      rw [hcons, List.tail_cons]
      omega
    · show Cmd.execute c s.grid
        = execList (Cmd.execute c₀ gB)
            ((s.history.take s.cursor ++ [c]).tail.take (s.cursor + 1 - 1))
      rw [hcons, List.tail_cons]
      have e1 : s.cursor + 1 - 1 = s.cursor := by omega
      rw [e1, hshift s.cursor]
      have e2 : (c₀ :: rest).take (s.cursor + 1) = c₀ :: rest := by
        apply List.take_of_length_le
        simp [hrest]
      rw [e2]
      exact hgrid2
    · show chainFrom (Cmd.execute c₀ gB) (s.history.take s.cursor ++ [c]).tail
      rw [hcons, List.tail_cons]
      intro k ck hck
      rw [hshift (k + 1), hshift k]
      refine hchain2 (k + 1) ck ?_
      rw [List.getElem?_cons_succ]
      exact hck
  · rw [if_neg hover]
    refine ⟨?_, ?_, gB, ?_, hchain1⟩
    · show (s.history.take s.cursor ++ [c]).length ≤ MAX_HISTORY
      omega
    · show s.cursor + 1 ≤ (s.history.take s.cursor ++ [c]).length
      omega
    · show Cmd.execute c s.grid
        = execList gB ((s.history.take s.cursor ++ [c]).take (s.cursor + 1))
      rw [htakefull, hgrid1]

/-- `undo()` preserves the invariant. -/
lemma inv_undoQ (s : QueueState) (h : QueueInv s) : QueueInv (undoQ s) := by
  obtain ⟨hlen, hcur, gB, hgrid, hchain⟩ := h
  unfold undoQ
  by_cases h1 : 1 ≤ s.cursor
  · rw [if_pos h1]
    have hlt : s.cursor - 1 < s.history.length := by omega
    rw [List.getElem?_eq_getElem hlt]
    dsimp only
    refine ⟨hlen, by dsimp only; omega, gB, ?_, hchain⟩
    show Cmd.undo (s.history[s.cursor - 1]) s.grid
      = execList gB (s.history.take (s.cursor - 1))
    have hch := hchain (s.cursor - 1) (s.history[s.cursor - 1])
      (List.getElem?_eq_getElem hlt)
    have e : s.cursor - 1 + 1 = s.cursor := by omega
    rw [e] at hch
    rw [hgrid]
    exact hch
  · rw [if_neg h1]
    exact ⟨hlen, hcur, gB, hgrid, hchain⟩

/-- `redo()` preserves the invariant. -/
lemma inv_redoQ (s : QueueState) (h : QueueInv s) : QueueInv (redoQ s) := by
  obtain ⟨hlen, hcur, gB, hgrid, hchain⟩ := h
  unfold redoQ
  by_cases h1 : s.cursor < s.history.length
  · rw [if_pos h1, List.getElem?_eq_getElem h1]
    dsimp only
    refine ⟨hlen, by dsimp only; omega, gB, ?_, hchain⟩
    show Cmd.execute (s.history[s.cursor]) s.grid
      = execList gB (s.history.take (s.cursor + 1))
    have hts : s.history.take (s.cursor + 1)
        = s.history.take s.cursor ++ [s.history[s.cursor]] := by
      rw [List.take_succ, List.getElem?_eq_getElem h1]
      rfl
    rw [hts, execList_concat, ← hgrid]
  · rw [if_neg h1]
    exact ⟨hlen, hcur, gB, hgrid, hchain⟩

/-- Every user-level operation preserves the invariant. -/
lemma inv_step (s : QueueState) (a : PaintAct) (h : QueueInv s) :
    QueueInv (stepAct s a) := by
  cases a with
  | stroke ws =>
    show QueueInv (if (mkBatch s.grid ws).length = 0 then s
      else executeCmd s (Cmd.batch (mkBatch s.grid ws)))
    by_cases hz : (mkBatch s.grid ws).length = 0
    · rw [if_pos hz]
      exact h
    · rw [if_neg hz]
      exact inv_executeCmd s _ h (mkBatch_consistent ws s.grid)
  | single p t =>
    show QueueInv (if s.grid.isValidPosition p.1 p.2 = true then
      executeCmd s
        (Cmd.paint { pos := p, oldTile := s.grid.tiles p.1 p.2, newTile := t })
      else s)
    by_cases hv : s.grid.isValidPosition p.1 p.2 = true
    · rw [if_pos hv]
      exact inv_executeCmd s _ h (paint_consistent s.grid p t)
    · rw [if_neg hv]
      exact h
  | undoA => exact inv_undoQ s h
  | redoA => exact inv_redoQ s h

/-- Every reachable command-log state satisfies the invariant. -/
lemma reachable_inv {s : QueueState} (h : Reachable s) : QueueInv s := by
  induction h with
  | init g =>
    refine ⟨by simp [initQueue, MAX_HISTORY], by simp [initQueue], g, rfl, ?_⟩
    intro k c hk
    simp [initQueue] at hk
  | step a _ ih => exact inv_step _ a ih

/-- C8: for every sequence of paint commands (single-tile or batch strokes)
executed through the command log, interleaved with undos and redos, at every
history position where `undo()` is possible, `undo()` followed by `redo()`
leaves the grid state unchanged. -/
theorem undo_redo_roundtrip (s : QueueState) (hs : Reachable s)
    (hcu : 1 ≤ s.cursor) :
    (redoQ (undoQ s)).grid = s.grid := by
  obtain ⟨hlen, hcur, gB, hgrid, hchain⟩ := reachable_inv hs
  have hlt : s.cursor - 1 < s.history.length := by omega
  unfold undoQ
  rw [if_pos hcu, List.getElem?_eq_getElem hlt]
  unfold redoQ
  dsimp only
  rw [if_pos hlt, List.getElem?_eq_getElem hlt]
  dsimp only
  have hch := hchain (s.cursor - 1) (s.history[s.cursor - 1])
    (List.getElem?_eq_getElem hlt)
  have e : s.cursor - 1 + 1 = s.cursor := by omega
  rw [e] at hch
  rw [hgrid, hch]
  have hts : s.history.take s.cursor
      = s.history.take (s.cursor - 1) ++ [s.history[s.cursor - 1]] := by
    conv_lhs => rw [← e]
    rw [List.take_succ, List.getElem?_eq_getElem hlt]
    rfl
  conv_rhs => rw [hts]
  rw [execList_concat]

/-- Witness for C8: paint one road tile through the log, then undo and redo;
the grid is unchanged. -/
theorem undo_redo_roundtrip_witness :
    (Reachable (stepAct (initQueue gridPlantOnly)
        (PaintAct.single (0, 0) { type := TileType.ROAD })) ∧
      1 ≤ (stepAct (initQueue gridPlantOnly)
        (PaintAct.single (0, 0) { type := TileType.ROAD })).cursor) ∧
    (redoQ (undoQ (stepAct (initQueue gridPlantOnly)
        (PaintAct.single (0, 0) { type := TileType.ROAD })))).grid
      = (stepAct (initQueue gridPlantOnly)
        (PaintAct.single (0, 0) { type := TileType.ROAD })).grid :=
  ⟨⟨Reachable.step (PaintAct.single (0, 0) { type := TileType.ROAD })
      (Reachable.init gridPlantOnly), by decide⟩,
    undo_redo_roundtrip _
      (Reachable.step (PaintAct.single (0, 0) { type := TileType.ROAD })
        (Reachable.init gridPlantOnly)) (by decide)⟩

end Pixelopolis
